import Mathlib

/-
Verification of the TankRepeater repository's tank-sensor support code.

The embedding below translates, function by function, the JavaScript of
"tank sensor pages/tanksensor.js", the QML binding expressions of
"FileSets/v2.40/TileTank.qml" and the tank sensor / shape pages, and the
UNINSTALL branch of the "setup" shell script.  JavaScript numbers are
modelled as exact rationals (ℚ); the integer-valued point coordinates of
the custom-shape codec are modelled as ℤ.  External GUI-runtime inputs
(bus item values, validity flags, strings shown by other widgets) appear
as explicit parameters.
-/

/-! ## tanksensor.js : unit conversion -/

/-- The record returned by `getVolumeFormat` in tanksensor.js. -/
structure VolumeFormat where
  precision : Nat
  stepSize : ℚ
  unit : String
  factor : ℚ
deriving DecidableEq

/-- tanksensor.js `getVolumeFormat(unit)`: the switch on the volume-unit
selector (1 = litre, 2 = imperial gallon, 3 = US gallon, default = m³). -/
def getVolumeFormat (unit : Int) : VolumeFormat :=
  if unit = 1 then ⟨0, 1, "L", 1000⟩
  else if unit = 2 then ⟨0, 1, "gal", 219.969157⟩
  else if unit = 3 then ⟨0, 1, "gal", 264.172052⟩
  else ⟨3, 0.005, "m<sup>3</sup>", 1⟩

/-- tanksensor.js `volumeConvertToSI(unit, volume)`. -/
def volumeConvertToSI (unit : Int) (volume : ℚ) : ℚ :=
  volume / (getVolumeFormat unit).factor

/-- tanksensor.js `volumeConvertFromSI(unit, volume)`. -/
def volumeConvertFromSI (unit : Int) (volume : ℚ) : ℚ :=
  volume * (getVolumeFormat unit).factor

/-! ## Decimal rendering of numbers

Model of the JavaScript runtime primitives used by tanksensor.js:
`Number.prototype.toFixed`, integer-to-string conversion (`Array.join`
applies it to the point coordinates), and unary `+` on digit strings.
`natDigitsAux` carries explicit fuel so that every definition reduces in
the kernel. -/

/-- The character for a decimal digit `d < 10` (code 48 + d). -/
def digitChar (d : Nat) : Char := Char.ofNat (48 + d)

/-- Decimal digits of `n`, most significant first; `fuel` bounds recursion
depth and is sufficient whenever `n < fuel`. -/
def natDigitsAux : Nat → Nat → List Nat
  | 0, _ => []
  | fuel + 1, n => if n < 10 then [n] else natDigitsAux fuel (n / 10) ++ [n % 10]

/-- Decimal digits of `n`, most significant first. -/
def natDigits (n : Nat) : List Nat := natDigitsAux (n + 1) n

/-- Value of a digit list read most-significant first. -/
def parseDigits (l : List Nat) : Nat := l.foldl (fun a d => a * 10 + d) 0

/-- Decimal character rendering of a natural number. -/
def jsRenderNat (n : Nat) : List Char := (natDigits n).map digitChar

/-- JavaScript number-to-string conversion restricted to integers. -/
def jsRenderInt (n : Int) : List Char :=
  if n < 0 then '-' :: jsRenderNat n.natAbs else jsRenderNat n.toNat

/-- Value of a digit-character list (helper for unary `+`). -/
def parseNatChars (cs : List Char) : Nat :=
  cs.foldl (fun a c => a * 10 + (c.toNat - 48)) 0

/-- JavaScript unary `+` on a string, restricted to the decimal-integer
strings produced by `jsRenderInt` (on which it agrees with the runtime). -/
def jsParseInt (cs : List Char) : Int :=
  match cs with
  | [] => 0
  | c :: rest => if c = '-' then -(parseNatChars rest : Int) else (parseNatChars (c :: rest) : Int)

/-- Left-pad a character list with zeros to the given length. -/
def padZeros (s : List Char) (len : Nat) : List Char :=
  List.replicate (len - s.length) '0' ++ s

/-- Model of ECMAScript `Number.prototype.toFixed` on exact rationals:
strip the sign, round `|x|·10^p` to the nearest integer (ties upward, the
"larger n" of the ECMA algorithm), and print with `p` decimals. -/
def toFixed (x : ℚ) (p : Nat) : String :=
  let sign := if x < 0 then "-" else ""
  let y := if x < 0 then -x else x
  let n : Nat := Nat.floor (y * 10 ^ p + 1 / 2)
  if p = 0 then sign ++ String.mk (jsRenderNat n)
  else
    sign ++ String.mk (jsRenderNat (n / 10 ^ p)) ++ "." ++
      String.mk (padZeros (jsRenderNat (n % 10 ^ p)) p)

/-- tanksensor.js `formatVolume(unit, volume)`; `none` models the
JavaScript `undefined` check. -/
def formatVolume (unit : Int) (volume : Option ℚ) : String :=
  let fmt := getVolumeFormat unit
  match volume with
  | none => "--"
  | some v => toFixed (volumeConvertFromSI unit v) fmt.precision ++ fmt.unit

/-! ## tanksensor.js : the custom-shape point codec -/

/-- JavaScript `String.prototype.split` with a one-character separator
(`"".split(sep)` yields `[""]`, hence the `[[]]` base case). -/
def splitSep (sep : Char) : List Char → List (List Char)
  | [] => [[]]
  | c :: rest =>
    let r := splitSep sep rest
    if c = sep then [] :: r else (c :: r.headD []) :: r.tail

/-- JavaScript `Array.prototype.join` with a one-character separator. -/
def joinSep (sep : Char) : List (List Char) → List Char
  | [] => []
  | [g] => g
  | g :: gs => g ++ sep :: joinSep sep gs

/-- tanksensor.js `stringToPointArray(str)`: `none` models `undefined`;
a string with zero `length` is falsy and also yields `[]`. -/
def stringToPointArray (str : Option String) : List (List Int) :=
  match str with
  | none => []
  | some s =>
    if s.length ≠ 0 then
      (splitSep ',' s.data).map fun g => (splitSep ':' g).map jsParseInt
    else []

/-- tanksensor.js `pointArrayToString(a)`. -/
def pointArrayToString (a : List (List Int)) : String :=
  String.mk (joinSep ',' (a.map fun p => joinSep ':' (p.map jsRenderInt)))

/-! ## PageTankShapeAddPoint.qml / PageTankShape.qml -/

/-- Insert a point into a list sorted ascending by the first coordinate;
models one step of `p.sort(function(a, b) { return a[0] - b[0] })`
(JavaScript out-of-range indexing is modelled by `getD _ 0`, which agrees
with the runtime on the well-formed pair lists these pages produce). -/
def insertByLevel (a : List Int) : List (List Int) → List (List Int)
  | [] => [a]
  | b :: rest =>
    if a.getD 0 0 ≤ b.getD 0 0 then a :: b :: rest else b :: insertByLevel a rest

/-- Model of `Array.prototype.sort` with comparator `a[0] - b[0]`:
a stable sorted permutation by sensor level. -/
def sortByLevel : List (List Int) → List (List Int)
  | [] => []
  | a :: rest => insertByLevel a (sortByLevel rest)

/-- The validation loop of `addPoint` in PageTankShapeAddPoint.qml:
`true` iff no adjacent pair has `p[i][0] <= p[i-1][0]` or
`p[i][1] <= p[i-1][1]`. -/
def adjacentOk : List (List Int) → Bool
  | [] => true
  | [_] => true
  | a :: b :: rest =>
    if b.getD 0 0 ≤ a.getD 0 0 then false
    else if b.getD 1 0 ≤ a.getD 1 0 then false
    else adjacentOk (b :: rest)

/-- PageTankShapeAddPoint.qml `addPoint()`: `lvl` and `vol` are the
numeric values of the two edit boxes, `shape` the current `/Shape` bus
value; `some s` is the string written back by `shapeItem.setValue`,
`none` means the insertion was rejected and nothing was stored. -/
def addPoint (lvl vol : Int) (shape : Option String) : Option String :=
  if lvl < 1 ∨ 99 < lvl then none
  else if vol < 1 ∨ 99 < vol then none
  else if adjacentOk (sortByLevel (stringToPointArray shape ++ [[lvl, vol]])) then
    some (pointArrayToString (sortByLevel (stringToPointArray shape ++ [[lvl, vol]])))
  else none

/-- PageTankShape.qml `addPoint()` guard (`model.length > 9` blocks the
add-point page) composed with the add-point page itself. -/
def addPointWithGuard (lvl vol : Int) (shape : Option String) : Option String :=
  if 9 < (stringToPointArray shape).length then none
  else addPoint lvl vol shape

/-- A stored point is a `[level, volume]` pair with both coordinates in
`[1, 99]`. -/
def GoodPoint (q : List Int) : Prop :=
  q.length = 2 ∧ 1 ≤ q.getD 0 0 ∧ q.getD 0 0 ≤ 99 ∧ 1 ≤ q.getD 1 0 ∧ q.getD 1 0 ≤ 99

instance (q : List Int) : Decidable (GoodPoint q) := by
  unfold GoodPoint; infer_instance

/-- Invariant of a decoded point sequence: well-formed in-range pairs,
strictly increasing in both coordinates, at most 10 points. -/
def GoodPoints (p : List (List Int)) : Prop :=
  (∀ q ∈ p, GoodPoint q) ∧ adjacentOk p = true ∧ p.length ≤ 10

instance (p : List (List Int)) : Decidable (GoodPoints p) := by
  unfold GoodPoints; infer_instance

/-- Invariant of a stored `/Shape` value (`none` = never written). -/
def GoodShape (shape : Option String) : Prop :=
  GoodPoints (stringToPointArray shape)

instance (shape : Option String) : Decidable (GoodShape shape) := by
  unfold GoodShape; infer_instance

/-! ## TileTank.qml : tile bindings -/

/-- TileTank.qml `fluidTypes` array (tile titles). -/
def fluidTypes : List String :=
  ["FUEL", "FRESH WATER", "WASTE WATER", "LIVE WELL", "OIL", "BLACK WATER"]

/-- TileTank.qml `titleField.text`:
`nameItem.valid && nameItem.value != '' ? nameItem.value :
 (fluidTypeItem.valid ? fluidTypes[tank] : "TANK ?")`
(out-of-range indexing renders as the string "undefined"). -/
def tileTitle (nameValid : Bool) (name : String) (fluidTypeValid : Bool) (tank : Nat) : String :=
  if nameValid = true ∧ name ≠ "" then name
  else if fluidTypeValid = true then fluidTypes.getD tank "undefined"
  else "TANK ?"

/-- TileTank.qml `valueBar.width`:
`root.level >= 0 ? root.level / 100 * parent.width - 2 : 0`. -/
def valueBarWidth (level parentWidth : ℚ) : ℚ :=
  if 0 ≤ level then level / 100 * parentWidth - 2 else 0

/-- TileTank.qml `valueBar.opacity`: `connectedItem.value ? 1 : 0.2`
(the `/Connected` bus value, with JavaScript truthiness on an integer). -/
def valueBarOpacity (connected : Int) : ℚ :=
  if connected ≠ 0 then 1 else 0.2

/-- TileTank.qml status text:
`!connectedItem.value ? "NO RESPONSE" : level >= 0 ?
 root.levelItem.text + " " + TankSensor.formatVolume(volumeUnit.value,
 root.remainingItem.value) : "ERROR"`. -/
def tileStatusText (connected : Int) (level : ℚ) (levelText : String)
    (volumeUnit : Int) (remaining : Option ℚ) : String :=
  if connected = 0 then "NO RESPONSE"
  else if 0 ≤ level then levelText ++ " " ++ formatVolume volumeUnit remaining
  else "ERROR"

/-- TileTank.qml status text color:
`!connectedItem.value ? "red" : level <= emptyWarningLevel ? "red" : "white"`. -/
def tileStatusColor (connected : Int) (level emptyWarningLevel : ℚ) : String :=
  if connected = 0 then "red"
  else if level ≤ emptyWarningLevel then "red"
  else "white"

/-! ## PageTankSensor (tank detail page) : title and fluid type -/

/-- The `fluidTypes` option list of the tank detail page
(description, value). -/
def fluidTypeOptions : List (String × Int) :=
  [("Fuel", 0), ("Fresh water", 1), ("Waste water", 2), ("Live well", 3),
   ("Oil", 4), ("Black water (sewage)", 5)]

/-- PageTankSensor `fluidTypeText(value)`: linear scan of the option
list, `"Unknown"` when no option matches. -/
def fluidTypeText (value : Int) : String :=
  match fluidTypeOptions.find? (fun o => decide (o.2 = value)) with
  | some o => o.1
  | none => "Unknown"

/-- PageTankSensor `getTitle()` helper: the " (n)" suffix built from the
digits of `/Mgmt/Connection` (`replace(/\D/g,'')`). -/
def inputNumberText (connectionValid : Bool) (connection : String) : String :=
  let inputNumber :=
    if connectionValid = true then String.mk (connection.data.filter fun c => c.isDigit)
    else ""
  if inputNumber ≠ "" then " (" ++ inputNumber ++ ")" else ""

/-- PageTankSensor `getTitle()`. -/
def getTitle (customNameValid : Bool) (customName : String)
    (connectionValid : Bool) (connection : String)
    (fluidTypeValid : Bool) (fluidType : Int) (serviceDescription : String) : String :=
  if customNameValid = true ∧ customName ≠ "" then customName
  else if fluidTypeValid = true then
    fluidTypeText fluidType ++ " tank" ++ inputNumberText connectionValid connection
  else serviceDescription ++ inputNumberText connectionValid connection

/-! ## setup script : UNINSTALL branch -/

/-- The two incoming-binding settings removed on every uninstall. -/
def incomingSettings : List String :=
  ["Devices/TankRepeater/IncomingTankService",
   "Devices/TankRepeater/IncomingTankProductId"]

/-- The 14 per-slot custom-name settings (Tank0 .. Tank13). -/
def customNameSettings : List String :=
  ["Devices/TankRepeater/Tank0/CustomName", "Devices/TankRepeater/Tank1/CustomName",
   "Devices/TankRepeater/Tank2/CustomName", "Devices/TankRepeater/Tank3/CustomName",
   "Devices/TankRepeater/Tank4/CustomName", "Devices/TankRepeater/Tank5/CustomName",
   "Devices/TankRepeater/Tank6/CustomName", "Devices/TankRepeater/Tank7/CustomName",
   "Devices/TankRepeater/Tank8/CustomName", "Devices/TankRepeater/Tank9/CustomName",
   "Devices/TankRepeater/Tank10/CustomName", "Devices/TankRepeater/Tank11/CustomName",
   "Devices/TankRepeater/Tank12/CustomName", "Devices/TankRepeater/Tank13/CustomName"]

/-- Every persisted TankRepeater setting. -/
def allTankRepeaterSettings : List String := incomingSettings ++ customNameSettings

/-- The settings the setup script's UNINSTALL branch passes to
`RemoveSettings`: all of them when `notCompatible`, otherwise only the
incoming binding. -/
def uninstallRemovedSettings (notCompatible : Bool) : List String :=
  if notCompatible = true then incomingSettings ++ customNameSettings
  else incomingSettings

/-- Outcome of running the UNINSTALL branch. -/
structure UninstallResult where
  settings : List String
  serviceRemoved : Bool
  guiFileRestored : Bool
deriving DecidableEq

/-- The UNINSTALL branch of the setup script: `removeService`, the
settings removal above, and `restoreActiveFile` on OverviewMobile.qml
(which re-exposes the original tank service in the GUI). -/
def uninstallScript (notCompatible : Bool) (settings : List String) : UninstallResult :=
  ⟨settings.filter fun k => decide (k ∉ uninstallRemovedSettings notCompatible),
   true, true⟩

/-! ## Tank Registry (spec §4.3) -/

/-- Raised by the Registry when all slots are taken. -/
inductive RegistryError where
  | CapacityExceeded
deriving DecidableEq

/-- Modelled from the spec: the Tank Repeater's Registry implementation
is not under src/ — the repository only carries its settings surface
(slots Tank0 .. Tank13 in the setup script).  Per §3/§4.3 the Registry is
a mapping from output slot (0–13) to the TankKey bound to it. -/
structure Registry where
  slots : Fin 14 → Option Nat

/-- Modelled from the spec: `lookupOrCreate(key)` of §4.3 — return the
slot already bound to `key`, otherwise bind `key` to a free slot, and
fail with `CapacityExceeded` when all 14 slots hold other live keys. -/
def lookupOrCreate (r : Registry) (key : Nat) :
    Except RegistryError (Registry × Fin 14 × Bool) :=
  match (List.finRange 14).find? (fun s => decide (r.slots s = some key)) with
  | some s => Except.ok (r, s, false)
  | none =>
    match (List.finRange 14).find? (fun s => (r.slots s).isNone) with
    | some s =>
      Except.ok (Registry.mk (fun t => if t = s then some key else r.slots t), s, true)
    | none => Except.error RegistryError.CapacityExceeded

/-- Modelled from the spec: `remove(slot)` of §4.3, the explicit
teardown that frees a slot on uninstall. -/
def registryRemove (r : Registry) (s : Fin 14) : Registry :=
  Registry.mk (fun t => if t = s then none else r.slots t)

/-- A registry with every slot occupied by a distinct key (witness). -/
def fullRegistry : Registry := Registry.mk (fun s => some s.val)

/-! ## Lemmas : decimal digits and characters -/

theorem natDigitsAux_parse : ∀ fuel n : Nat, n < fuel → parseDigits (natDigitsAux fuel n) = n := by
  intro fuel
  induction fuel with
  | zero => intro n h; omega
  | succ fuel ih =>
    intro n h
    unfold natDigitsAux
    by_cases h10 : n < 10
    · simp [h10, parseDigits]
    · have hlt : n / 10 < fuel := by
        have hd : n / 10 < n := Nat.div_lt_self (by omega) (by omega)
        omega
      simp only [h10, if_false]
      unfold parseDigits
      rw [List.foldl_append]
      have hih := ih (n / 10) hlt
      unfold parseDigits at hih
      rw [hih]
      simp only [List.foldl_cons, List.foldl_nil]
      omega

theorem natDigitsAux_lt_ten : ∀ fuel n : Nat, n < fuel → ∀ d ∈ natDigitsAux fuel n, d < 10 := by
  intro fuel
  induction fuel with
  | zero => intro n h; omega
  | succ fuel ih =>
    intro n h d hd
    unfold natDigitsAux at hd
    by_cases h10 : n < 10
    · simp [h10] at hd
      omega
    · have hlt : n / 10 < fuel := by
        have hdd : n / 10 < n := Nat.div_lt_self (by omega) (by omega)
        omega
      simp only [h10, if_false, List.mem_append, List.mem_singleton] at hd
      rcases hd with hd | hd
      · exact ih (n / 10) hlt d hd
      · omega

theorem natDigitsAux_ne_nil : ∀ fuel n : Nat, n < fuel → natDigitsAux fuel n ≠ [] := by
  intro fuel
  induction fuel with
  | zero => intro n h; omega
  | succ fuel _ =>
    intro n _
    unfold natDigitsAux
    by_cases h10 : n < 10
    · simp [h10]
    · simp [h10]

theorem parseDigits_natDigits (n : Nat) : parseDigits (natDigits n) = n :=
  natDigitsAux_parse (n + 1) n (by omega)

theorem natDigits_lt_ten (n : Nat) : ∀ d ∈ natDigits n, d < 10 :=
  natDigitsAux_lt_ten (n + 1) n (by omega)

theorem natDigits_ne_nil (n : Nat) : natDigits n ≠ [] :=
  natDigitsAux_ne_nil (n + 1) n (by omega)

theorem digitChar_toNat {d : Nat} (h : d < 10) : (digitChar d).toNat = 48 + d := by
  interval_cases d <;> decide

theorem digitChar_ne_dash {d : Nat} (h : d < 10) : digitChar d ≠ '-' := by
  intro he
  have ht := congrArg Char.toNat he
  rw [digitChar_toNat h] at ht
  have h45 : ('-' : Char).toNat = 45 := by decide
  omega

theorem digitChar_ne_comma {d : Nat} (h : d < 10) : digitChar d ≠ ',' := by
  intro he
  have ht := congrArg Char.toNat he
  rw [digitChar_toNat h] at ht
  have h44 : (',' : Char).toNat = 44 := by decide
  omega

theorem digitChar_ne_colon {d : Nat} (h : d < 10) : digitChar d ≠ ':' := by
  intro he
  have ht := congrArg Char.toNat he
  rw [digitChar_toNat h] at ht
  have h58 : (':' : Char).toNat = 58 := by decide
  omega

theorem parseNatChars_map_aux (l : List Nat) :
    (∀ d ∈ l, d < 10) → ∀ acc : Nat,
      List.foldl (fun a c => a * 10 + (c.toNat - 48)) acc (l.map digitChar) =
        List.foldl (fun a d => a * 10 + d) acc l := by
  induction l with
  | nil => intro _ acc; rfl
  | cons d l ih =>
    intro h acc
    simp only [List.map_cons, List.foldl_cons]
    rw [digitChar_toNat (h d (by simp))]
    have h48 : 48 + d - 48 = d := by omega
    rw [h48]
    exact ih (fun x hx => h x (by simp [hx])) (acc * 10 + d)

theorem parseNatChars_jsRenderNat (n : Nat) : parseNatChars (jsRenderNat n) = n := by
  unfold parseNatChars jsRenderNat
  rw [parseNatChars_map_aux (natDigits n) (natDigits_lt_ten n) 0]
  exact parseDigits_natDigits n

theorem jsRenderNat_ne_nil (n : Nat) : jsRenderNat n ≠ [] := by
  unfold jsRenderNat
  intro h
  exact natDigits_ne_nil n (List.map_eq_nil_iff.mp h)

theorem jsRenderInt_ne_nil (n : Int) : jsRenderInt n ≠ [] := by
  unfold jsRenderInt
  by_cases hn : n < 0
  · simp [hn]
  · simp only [hn, if_false]
    exact jsRenderNat_ne_nil _

theorem jsRenderInt_chars {n : Int} {c : Char} (hc : c ∈ jsRenderInt n) :
    c = '-' ∨ ∃ d : Nat, d < 10 ∧ c = digitChar d := by
  unfold jsRenderInt at hc
  by_cases hn : n < 0
  · rw [if_pos hn] at hc
    rcases List.mem_cons.mp hc with h | h
    · exact Or.inl h
    · unfold jsRenderNat at h
      rcases List.mem_map.mp h with ⟨d, hd, rfl⟩
      exact Or.inr ⟨d, natDigits_lt_ten _ d hd, rfl⟩
  · rw [if_neg hn] at hc
    unfold jsRenderNat at hc
    rcases List.mem_map.mp hc with ⟨d, hd, rfl⟩
    exact Or.inr ⟨d, natDigits_lt_ten _ d hd, rfl⟩

theorem jsRenderInt_sep_free {n : Int} {c : Char} (hc : c ∈ jsRenderInt n) :
    c ≠ ',' ∧ c ≠ ':' := by
  rcases jsRenderInt_chars hc with h | ⟨d, hd, rfl⟩
  · subst h
    exact ⟨by decide, by decide⟩
  · exact ⟨digitChar_ne_comma hd, digitChar_ne_colon hd⟩

theorem jsParseInt_jsRenderInt (n : Int) : jsParseInt (jsRenderInt n) = n := by
  by_cases hn : n < 0
  · rw [jsRenderInt, if_pos hn]
    have hstep : jsParseInt ('-' :: jsRenderNat n.natAbs) =
        -(parseNatChars (jsRenderNat n.natAbs) : Int) := by
      simp [jsParseInt]
    rw [hstep, parseNatChars_jsRenderNat]
    omega
  · simp only [jsRenderInt, if_neg hn]
    unfold jsRenderNat
    cases hD : natDigits n.toNat with
    | nil => exact absurd hD (natDigits_ne_nil _)
    | cons d l =>
      have hd10 : d < 10 := natDigits_lt_ten n.toNat d (by rw [hD]; simp)
      simp only [List.map_cons, jsParseInt, if_neg (digitChar_ne_dash hd10)]
      have hmap : digitChar d :: l.map digitChar = (d :: l).map digitChar := by simp
      rw [hmap, ← hD]
      have : parseNatChars ((natDigits n.toNat).map digitChar) = n.toNat :=
        parseNatChars_jsRenderNat n.toNat
      unfold parseNatChars at this
      unfold parseNatChars
      rw [this]
      omega

/-! ## Lemmas : split / join -/

theorem splitSep_cons (sep c : Char) (rest : List Char) :
    splitSep sep (c :: rest) =
      if c = sep then [] :: splitSep sep rest
      else (c :: (splitSep sep rest).headD []) :: (splitSep sep rest).tail := rfl

theorem splitSep_ne_nil (sep : Char) (cs : List Char) : splitSep sep cs ≠ [] := by
  induction cs with
  | nil => simp [splitSep]
  | cons c rest ih =>
    rw [splitSep_cons]
    by_cases hc : c = sep
    · simp [hc]
    · simp [hc]

theorem splitSep_no_sep {sep : Char} {g : List Char} (h : sep ∉ g) : splitSep sep g = [g] := by
  induction g with
  | nil => rfl
  | cons c g ih =>
    have hc : c ≠ sep := fun e => h (by simp [e])
    have hg : sep ∉ g := fun m => h (by simp [m])
    rw [splitSep_cons, if_neg hc, ih hg]
    rfl

theorem splitSep_append {sep : Char} {g : List Char} (h : sep ∉ g) (rest : List Char) :
    splitSep sep (g ++ sep :: rest) = g :: splitSep sep rest := by
  induction g with
  | nil =>
    rw [List.nil_append, splitSep_cons, if_pos rfl]
  | cons c g ih =>
    have hc : c ≠ sep := fun e => h (by simp [e])
    have hg : sep ∉ g := fun m => h (by simp [m])
    rw [List.cons_append, splitSep_cons, if_neg hc, ih hg]
    rfl

theorem splitSep_joinSep {sep : Char} {parts : List (List Char)} (hne : parts ≠ [])
    (h : ∀ g ∈ parts, sep ∉ g) : splitSep sep (joinSep sep parts) = parts := by
  induction parts with
  | nil => exact absurd rfl hne
  | cons g gs ih =>
    cases gs with
    | nil =>
      simp only [joinSep]
      exact splitSep_no_sep (h g (by simp))
    | cons g2 gs2 =>
      simp only [joinSep]
      rw [splitSep_append (h g (by simp)) (joinSep sep (g2 :: gs2))]
      rw [ih (by simp) (fun x hx => h x (by simp [hx]))]

theorem mem_joinSep {sep : Char} {parts : List (List Char)} {c : Char}
    (hc : c ∈ joinSep sep parts) : c = sep ∨ ∃ g ∈ parts, c ∈ g := by
  induction parts with
  | nil => simp [joinSep] at hc
  | cons g gs ih =>
    cases gs with
    | nil =>
      simp only [joinSep] at hc
      exact Or.inr ⟨g, by simp, hc⟩
    | cons g2 gs2 =>
      simp only [joinSep, List.mem_append, List.mem_cons] at hc
      rcases hc with hc | hc | hc
      · exact Or.inr ⟨g, by simp, hc⟩
      · exact Or.inl hc
      · rcases ih hc with hs | ⟨g3, hg3, hc3⟩
        · exact Or.inl hs
        · exact Or.inr ⟨g3, by simp [hg3], hc3⟩

theorem joinSep_cons_ne_nil {sep : Char} {g : List Char} {gs : List (List Char)}
    (hg : g ≠ []) : joinSep sep (g :: gs) ≠ [] := by
  cases gs with
  | nil => simpa [joinSep] using hg
  | cons g2 gs2 =>
    simp only [joinSep]
    intro he
    have hl := congrArg List.length he
    simp only [List.length_append, List.length_cons, List.length_nil] at hl
    omega

/-! ## Lemmas : the point codec -/

theorem innerGroup_ne_nil {q : List Int} (hq : q ≠ []) :
    joinSep ':' (q.map jsRenderInt) ≠ [] := by
  cases q with
  | nil => exact absurd rfl hq
  | cons a q2 =>
    simp only [List.map_cons]
    exact joinSep_cons_ne_nil (jsRenderInt_ne_nil a)

theorem innerGroup_sep_free (q : List Int) {c : Char}
    (hc : c ∈ joinSep ':' (q.map jsRenderInt)) : c ≠ ',' := by
  rcases mem_joinSep hc with h | ⟨g, hg, hcg⟩
  · subst h; decide
  · rcases List.mem_map.mp hg with ⟨n, -, rfl⟩
    exact (jsRenderInt_sep_free hcg).1

theorem splitColon_innerGroup {q : List Int} (hq : q ≠ []) :
    splitSep ':' (joinSep ':' (q.map jsRenderInt)) = q.map jsRenderInt := by
  apply splitSep_joinSep
  · simpa using hq
  · intro g hg hmem
    rcases List.mem_map.mp hg with ⟨n, -, rfl⟩
    exact (jsRenderInt_sep_free hmem).2 rfl

theorem stringToPointArray_some (s : String) :
    stringToPointArray (some s) =
      if s.length ≠ 0 then (splitSep ',' s.data).map fun g => (splitSep ':' g).map jsParseInt
      else [] := rfl

/-- Round-trip of the custom-shape codec on any list of nonempty points. -/
theorem stringToPointArray_pointArrayToString (p : List (List Int))
    (hp : ∀ q ∈ p, q ≠ []) : stringToPointArray (some (pointArrayToString p)) = p := by
  cases p with
  | nil => rfl
  | cons q qs =>
    have hq : q ≠ [] := hp q (by simp)
    rw [pointArrayToString, stringToPointArray_some]
    have hne : joinSep ',' ((q :: qs).map fun r => joinSep ':' (r.map jsRenderInt)) ≠ [] := by
      simp only [List.map_cons]
      exact joinSep_cons_ne_nil (innerGroup_ne_nil hq)
    have hlen :
        (String.mk (joinSep ',' ((q :: qs).map fun r => joinSep ':' (r.map jsRenderInt)))).length ≠ 0 :=
      fun h => hne (List.length_eq_zero.mp h)
    rw [if_pos hlen]
    have hdata :
        (String.mk (joinSep ',' ((q :: qs).map fun r => joinSep ':' (r.map jsRenderInt)))).data =
          joinSep ',' ((q :: qs).map fun r => joinSep ':' (r.map jsRenderInt)) := rfl
    rw [hdata]
    have hsepfree : ∀ g ∈ (q :: qs).map fun r => joinSep ':' (r.map jsRenderInt), ',' ∉ g := by
      intro g hg hmem
      rcases List.mem_map.mp hg with ⟨r, -, rfl⟩
      exact innerGroup_sep_free r hmem rfl
    rw [splitSep_joinSep (by simp) hsepfree]
    rw [List.map_map]
    have hstep : ∀ r ∈ q :: qs,
        ((fun g => (splitSep ':' g).map jsParseInt) ∘ fun r => joinSep ':' (r.map jsRenderInt)) r = r := by
      intro r hr
      have hrne : r ≠ [] := hp r hr
      simp only [Function.comp]
      rw [splitColon_innerGroup hrne, List.map_map]
      have hid : ∀ x ∈ r, (jsParseInt ∘ jsRenderInt) x = x := by
        intro x _
        exact jsParseInt_jsRenderInt x
      rw [List.map_congr_left hid]
      simp
    rw [List.map_congr_left hstep]
    simp

/-! ## Lemmas : sorting and the adjacency check -/

theorem mem_insertByLevel {x a : List Int} {l : List (List Int)} :
    x ∈ insertByLevel a l ↔ x = a ∨ x ∈ l := by
  induction l with
  | nil => simp [insertByLevel]
  | cons b rest ih =>
    rw [insertByLevel]
    split
    · simp
    · simp only [List.mem_cons, ih]
      tauto

theorem length_insertByLevel (a : List Int) (l : List (List Int)) :
    (insertByLevel a l).length = l.length + 1 := by
  induction l with
  | nil => rfl
  | cons b rest ih =>
    rw [insertByLevel]
    split
    · simp
    · simp only [List.length_cons, ih]

theorem mem_sortByLevel {x : List Int} {p : List (List Int)} :
    x ∈ sortByLevel p ↔ x ∈ p := by
  induction p with
  | nil => simp [sortByLevel]
  | cons a rest ih =>
    rw [sortByLevel]
    rw [mem_insertByLevel]
    simp [ih]

theorem length_sortByLevel (p : List (List Int)) :
    (sortByLevel p).length = p.length := by
  induction p with
  | nil => rfl
  | cons a rest ih =>
    rw [sortByLevel, length_insertByLevel, ih]
    rfl

/-- Strict increase in both coordinates, the relation the add-point
validation loop enforces between adjacent stored points. -/
def pointLt (a b : List Int) : Prop :=
  a.getD 0 0 < b.getD 0 0 ∧ a.getD 1 0 < b.getD 1 0

theorem adjacentOk_chain : ∀ p : List (List Int), adjacentOk p = true → List.Chain' pointLt p := by
  intro p
  induction p with
  | nil => intro _; exact List.chain'_nil
  | cons a rest ih =>
    cases rest with
    | nil => intro _; exact List.chain'_singleton a
    | cons b rest2 =>
      intro h
      rw [adjacentOk] at h
      by_cases h1 : b.getD 0 0 ≤ a.getD 0 0
      · rw [if_pos h1] at h
        exact absurd h (by simp)
      · rw [if_neg h1] at h
        by_cases h2 : b.getD 1 0 ≤ a.getD 1 0
        · rw [if_pos h2] at h
          exact absurd h (by simp)
        · rw [if_neg h2] at h
          rw [List.chain'_cons]
          exact ⟨⟨by omega, by omega⟩, ih h⟩

/-! ## Lemmas : Registry -/

theorem lookupOrCreate_full {r : Registry} {key : Nat}
    (hfull : ∀ s : Fin 14, (r.slots s).isSome)
    (hnew : ∀ s : Fin 14, r.slots s ≠ some key) :
    lookupOrCreate r key = Except.error RegistryError.CapacityExceeded := by
  unfold lookupOrCreate
  have h1 : (List.finRange 14).find? (fun s => decide (r.slots s = some key)) = none := by
    rw [List.find?_eq_none]
    intro s _
    simp [hnew s]
  have h2 : (List.finRange 14).find? (fun s => (r.slots s).isNone) = none := by
    rw [List.find?_eq_none]
    intro s _
    have := hfull s
    simp [Option.isNone_iff_eq_none]
    exact Option.isSome_iff_ne_none.mp this
  rw [h1, h2]

theorem lookupOrCreate_after_remove {r : Registry} {key : Nat}
    (hnew : ∀ s : Fin 14, r.slots s ≠ some key) (s0 : Fin 14) :
    ∃ (rr : Registry) (ss : Fin 14),
      lookupOrCreate (registryRemove r s0) key = Except.ok (rr, ss, true) ∧
        rr.slots ss = some key := by
  unfold lookupOrCreate
  have h1 : (List.finRange 14).find?
      (fun s => decide ((registryRemove r s0).slots s = some key)) = none := by
    rw [List.find?_eq_none]
    intro s _
    unfold registryRemove
    by_cases hs : s = s0
    · simp [hs]
    · simp only [decide_eq_true_eq]
      simp [hs]
      exact hnew s
  rw [h1]
  have h2 : ((List.finRange 14).find? (fun s => ((registryRemove r s0).slots s).isNone)).isSome := by
    rw [List.find?_isSome]
    refine ⟨s0, List.mem_finRange s0, ?_⟩
    unfold registryRemove
    simp
  cases hf : (List.finRange 14).find? (fun s => ((registryRemove r s0).slots s).isNone) with
  | none => rw [hf] at h2; simp at h2
  | some s1 =>
    refine ⟨_, s1, rfl, ?_⟩
    simp

/-! ## Lemmas : unit conversion -/

theorem getVolumeFormat_factor_pos (unit : Int) : 0 < (getVolumeFormat unit).factor := by
  unfold getVolumeFormat
  split_ifs <;> norm_num

/-! ## The claims -/

/-- Claim C1: for every unit selector and every volume value,
`volumeConvertToSI` and `volumeConvertFromSI` are mutually inverse, so the
conversion pair is bijective on the representable range (JavaScript
numbers modelled as exact rationals). -/
theorem C1_volume_codec_inverse (unit : Int) (v : ℚ) :
    volumeConvertToSI unit (volumeConvertFromSI unit v) = v ∧
    volumeConvertFromSI unit (volumeConvertToSI unit v) = v := by
  have hf : (getVolumeFormat unit).factor ≠ 0 :=
    ne_of_gt (getVolumeFormat_factor_pos unit)
  unfold volumeConvertToSI volumeConvertFromSI
  constructor
  · field_simp
  · field_simp

/-- Claim C2: `getVolumeFormat` is the fixed lookup table — unit 1 (litre)
factor 1000, precision 0, step 1; unit 2 (imperial gallon) factor
219.969157; unit 3 (US gallon) factor 264.172052; every other unit (cubic
metre) factor 1, precision 3, step 0.005 — and the conversions are the
linear scalings `v / factor` and `v * factor`. -/
theorem C2_volume_format_table :
    getVolumeFormat 1 = ⟨0, 1, "L", 1000⟩ ∧
    getVolumeFormat 2 = ⟨0, 1, "gal", 219.969157⟩ ∧
    getVolumeFormat 3 = ⟨0, 1, "gal", 264.172052⟩ ∧
    (∀ u : Int, u ≠ 1 → u ≠ 2 → u ≠ 3 →
      getVolumeFormat u = ⟨3, 0.005, "m<sup>3</sup>", 1⟩) ∧
    (∀ (u : Int) (v : ℚ),
      volumeConvertToSI u v = v / (getVolumeFormat u).factor ∧
      volumeConvertFromSI u v = v * (getVolumeFormat u).factor) := by
  refine ⟨rfl, rfl, rfl, ?_, ?_⟩
  · intro u h1 h2 h3
    unfold getVolumeFormat
    rw [if_neg h1, if_neg h2, if_neg h3]
  · intro u v
    exact ⟨rfl, rfl⟩

theorem C2_volume_format_table_witness :
    ((0 : Int) ≠ 1) ∧ getVolumeFormat 0 = ⟨3, 0.005, "m<sup>3</sup>", 1⟩ :=
  ⟨by decide, C2_volume_format_table.2.2.2.1 0 (by decide) (by decide) (by decide)⟩

/-- Claim C3: when all 14 Registry slots hold distinct live keys and a new
key arrives, `lookupOrCreate` fails with `CapacityExceeded` (the update is
dropped, no slot changes); after any slot is freed by `registryRemove`,
the new key is accepted into a slot. -/
theorem C3_registry_capacity (r : Registry) (key : Nat)
    (hfull : ∀ s : Fin 14, (r.slots s).isSome)
    (hnew : ∀ s : Fin 14, r.slots s ≠ some key) :
    lookupOrCreate r key = Except.error RegistryError.CapacityExceeded ∧
    ∀ s0 : Fin 14, ∃ (rr : Registry) (ss : Fin 14),
      lookupOrCreate (registryRemove r s0) key = Except.ok (rr, ss, true) ∧
        rr.slots ss = some key :=
  ⟨lookupOrCreate_full hfull hnew, fun s0 => lookupOrCreate_after_remove hnew s0⟩

theorem C3_registry_capacity_witness :
    (∀ s : Fin 14, (fullRegistry.slots s).isSome) ∧
    (∀ s : Fin 14, fullRegistry.slots s ≠ some 14) ∧
    lookupOrCreate fullRegistry 14 = Except.error RegistryError.CapacityExceeded :=
  ⟨by decide, by decide,
   (C3_registry_capacity fullRegistry 14 (by decide) (by decide)).1⟩

/-- Claim C4, counterexample: a normal uninstall (`notCompatible = false`)
leaves the per-slot CustomName settings in the persisted store, so
uninstall does NOT delete every persisted registry entry as claimed. -/
theorem C4_uninstall_counterexample :
    "Devices/TankRepeater/Tank0/CustomName" ∈
      (uninstallScript false allTankRepeaterSettings).settings := by
  decide

/-- Claim C4, amended: uninstall always removes the repeater service,
restores the original GUI file (original service visible again) and
deletes the IncomingTankService/IncomingTankProductId binding; the 14
per-slot CustomName settings are deleted only when the package is marked
incompatible with the running Venus version, and survive a normal
uninstall. -/
theorem C4_uninstall_amended (notCompatible : Bool) (settings : List String) :
    (uninstallScript notCompatible settings).serviceRemoved = true ∧
    (uninstallScript notCompatible settings).guiFileRestored = true ∧
    (∀ k ∈ incomingSettings, k ∉ (uninstallScript notCompatible settings).settings) ∧
    (notCompatible = true →
      ∀ k ∈ customNameSettings, k ∉ (uninstallScript notCompatible settings).settings) ∧
    (notCompatible = false →
      ∀ k ∈ customNameSettings, k ∈ settings →
        k ∈ (uninstallScript notCompatible settings).settings) := by
  have hsettings : (uninstallScript notCompatible settings).settings =
      settings.filter fun k => decide (k ∉ uninstallRemovedSettings notCompatible) := rfl
  refine ⟨rfl, rfl, ?_, ?_, ?_⟩
  · intro k hk hmem
    rw [hsettings, List.mem_filter] at hmem
    have hnot := of_decide_eq_true hmem.2
    apply hnot
    cases notCompatible
    · simpa [uninstallRemovedSettings] using hk
    · simp [uninstallRemovedSettings, List.mem_append]
      exact Or.inl hk
  · intro hnc k hk hmem
    subst hnc
    rw [hsettings, List.mem_filter] at hmem
    have hnot := of_decide_eq_true hmem.2
    apply hnot
    simp [uninstallRemovedSettings, List.mem_append]
    exact Or.inr hk
  · intro hnc k hk hks
    subst hnc
    rw [hsettings, List.mem_filter]
    refine ⟨hks, ?_⟩
    have hdisj : ∀ x ∈ customNameSettings, x ∉ incomingSettings := by decide
    have hrem : uninstallRemovedSettings false = incomingSettings := rfl
    rw [decide_eq_true_eq, hrem]
    exact hdisj k hk

theorem C4_uninstall_amended_witness :
    "Devices/TankRepeater/Tank5/CustomName" ∉
      (uninstallScript true allTankRepeaterSettings).settings ∧
    "Devices/TankRepeater/Tank5/CustomName" ∈
      (uninstallScript false allTankRepeaterSettings).settings :=
  ⟨(C4_uninstall_amended true allTankRepeaterSettings).2.2.2.1 rfl _ (by decide),
   (C4_uninstall_amended false allTankRepeaterSettings).2.2.2.2 rfl _ (by decide) (by decide)⟩

/-- Claim C5: when a published tank service's `/Connected` value is 0, the
tile's status text is "NO RESPONSE" in red while the level bar is still
rendered from the last published `/Level` value, dimmed to opacity 0.2
instead of vanishing or blanking. -/
theorem C5_no_response_display (level parentWidth emptyWarningLevel : ℚ)
    (levelText : String) (volumeUnit : Int) (remaining : Option ℚ)
    (hlevel : 0 ≤ level) :
    tileStatusText 0 level levelText volumeUnit remaining = "NO RESPONSE" ∧
    tileStatusColor 0 level emptyWarningLevel = "red" ∧
    valueBarOpacity 0 = 0.2 ∧
    valueBarWidth level parentWidth = level / 100 * parentWidth - 2 := by
  refine ⟨rfl, rfl, rfl, ?_⟩
  unfold valueBarWidth
  rw [if_pos hlevel]

theorem C5_no_response_display_witness :
    ((0 : ℚ) ≤ 55) ∧ tileStatusText 0 55 "55 %" 1 (some 0.12) = "NO RESPONSE" :=
  ⟨by norm_num,
   (C5_no_response_display 55 100 20 "55 %" 1 (some 0.12) (by norm_num)).1⟩

/-- Claim C6: every fluid-type code outside 0–5 decodes to "Unknown"
rather than raising an error; `fluidTypeText` is total on ℤ. -/
theorem C6_fluidTypeText_unknown (value : Int) (h : value < 0 ∨ 5 < value) :
    fluidTypeText value = "Unknown" := by
  unfold fluidTypeText
  have hfind : fluidTypeOptions.find? (fun o => decide (o.2 = value)) = none := by
    rw [List.find?_eq_none]
    intro o ho
    simp only [decide_eq_true_eq]
    fin_cases ho <;> simp <;> omega
  rw [hfind]

theorem C6_fluidTypeText_unknown_witness :
    ((7 : Int) < 0 ∨ 5 < (7 : Int)) ∧ fluidTypeText 7 = "Unknown" :=
  ⟨by decide, C6_fluidTypeText_unknown 7 (by decide)⟩

/-- Claim C7: the displayed title is validated only for emptiness — a
valid non-empty `/CustomName` is shown as-is, while an empty or invalid
one clears the title to the default display (the fluid-type name when the
fluid type is valid, otherwise a generic placeholder), on both the tank
tile and the tank detail page. -/
theorem C7_custom_name_display
    (nameValid connectionValid fluidTypeValid : Bool)
    (name connection serviceDescription : String) (tank : Nat) (fluidType : Int) :
    (nameValid = true → name ≠ "" →
      tileTitle nameValid name fluidTypeValid tank = name ∧
      getTitle nameValid name connectionValid connection fluidTypeValid fluidType
        serviceDescription = name) ∧
    (nameValid = false ∨ name = "" →
      tileTitle nameValid name fluidTypeValid tank =
        (if fluidTypeValid = true then fluidTypes.getD tank "undefined" else "TANK ?") ∧
      getTitle nameValid name connectionValid connection fluidTypeValid fluidType
          serviceDescription =
        (if fluidTypeValid = true then
          fluidTypeText fluidType ++ " tank" ++ inputNumberText connectionValid connection
         else serviceDescription ++ inputNumberText connectionValid connection)) := by
  constructor
  · intro hv hne
    constructor
    · unfold tileTitle
      rw [if_pos ⟨hv, hne⟩]
    · unfold getTitle
      rw [if_pos ⟨hv, hne⟩]
  · intro hor
    have hcond : ¬(nameValid = true ∧ name ≠ "") := by
      rcases hor with h | h
      · rintro ⟨h1, -⟩
        rw [h] at h1
        exact absurd h1 (by simp)
      · rintro ⟨-, h2⟩
        exact h2 h
    constructor
    · unfold tileTitle
      rw [if_neg hcond]
    · unfold getTitle
      rw [if_neg hcond]

theorem C7_custom_name_display_witness :
    tileTitle true "Aft tank" true 0 = "Aft tank" ∧
    getTitle false "x" false "con2" true 1 "svc" = "Fresh water tank" := by
  constructor
  · exact ((C7_custom_name_display true false true "Aft tank" "con2" "svc" 0 1).1
      rfl (by decide)).1
  · have h := ((C7_custom_name_display false false true "x" "con2" "svc" 0 1).2
      (Or.inl rfl)).2
    rw [h]
    decide

/-- Claim C8: starting from a well-formed stored shape (or an empty one),
any string the add-point operation stores again encodes at most 10 pair
points with integer coordinates in [1, 99], strictly increasing in both
sensor level and volume; an insertion with an out-of-range coordinate is
rejected with nothing stored. -/
theorem C8_addPoint_invariant (lvl vol : Int) (shape : Option String)
    (h : GoodShape shape) :
    (∀ s2, addPointWithGuard lvl vol shape = some s2 →
      GoodShape (some s2) ∧ List.Chain' pointLt (stringToPointArray (some s2))) ∧
    (lvl < 1 ∨ 99 < lvl ∨ vol < 1 ∨ 99 < vol →
      addPointWithGuard lvl vol shape = none) := by
  obtain ⟨hgood, hadj, hlen10⟩ := h
  constructor
  · intro s2 hs2
    unfold addPointWithGuard at hs2
    by_cases hg : 9 < (stringToPointArray shape).length
    · rw [if_pos hg] at hs2
      exact Option.noConfusion hs2
    · rw [if_neg hg] at hs2
      unfold addPoint at hs2
      by_cases h1 : lvl < 1 ∨ 99 < lvl
      · rw [if_pos h1] at hs2
        exact Option.noConfusion hs2
      · rw [if_neg h1] at hs2
        by_cases h2 : vol < 1 ∨ 99 < vol
        · rw [if_pos h2] at hs2
          exact Option.noConfusion hs2
        · rw [if_neg h2] at hs2
          by_cases h3 : adjacentOk (sortByLevel (stringToPointArray shape ++ [[lvl, vol]])) = true
          · rw [if_pos h3] at hs2
            injection hs2 with hs2
            subst hs2
            have hmem : ∀ q ∈ sortByLevel (stringToPointArray shape ++ [[lvl, vol]]),
                q ∈ stringToPointArray shape ∨ q = [lvl, vol] := by
              intro q hq
              rw [mem_sortByLevel, List.mem_append] at hq
              rcases hq with hq | hq
              · exact Or.inl hq
              · simp at hq
                exact Or.inr hq
            have hpair : ∀ q ∈ sortByLevel (stringToPointArray shape ++ [[lvl, vol]]),
                GoodPoint q := by
              intro q hq
              rcases hmem q hq with hold | hnew2
              · exact hgood q hold
              · subst hnew2
                unfold GoodPoint
                refine ⟨by simp, ?_, ?_, ?_, ?_⟩ <;> simp <;> omega
            have hne2 : ∀ q ∈ sortByLevel (stringToPointArray shape ++ [[lvl, vol]]),
                q ≠ [] := by
              intro q hq hnil
              have hq2 := (hpair q hq).1
              rw [hnil] at hq2
              simp at hq2
            have hrt := stringToPointArray_pointArrayToString
              (sortByLevel (stringToPointArray shape ++ [[lvl, vol]])) hne2
            constructor
            · unfold GoodShape GoodPoints
              rw [hrt]
              refine ⟨hpair, h3, ?_⟩
              rw [length_sortByLevel, List.length_append]
              simp only [List.length_singleton]
              omega
            · rw [hrt]
              exact adjacentOk_chain _ h3
          · rw [if_neg h3] at hs2
            exact Option.noConfusion hs2
  · intro hr
    unfold addPointWithGuard addPoint
    by_cases hg : 9 < (stringToPointArray shape).length
    · rw [if_pos hg]
    · rw [if_neg hg]
      by_cases h1 : lvl < 1 ∨ 99 < lvl
      · rw [if_pos h1]
      · rw [if_neg h1]
        have h2 : vol < 1 ∨ 99 < vol := by
          rcases hr with h | h | h | h
          · exact absurd (Or.inl h) h1
          · exact absurd (Or.inr h) h1
          · exact Or.inl h
          · exact Or.inr h
        rw [if_pos h2]

theorem C8_addPoint_invariant_witness :
    GoodShape (some "20:30") ∧ GoodShape (some "20:30,50:60") := by
  have hgood : GoodShape (some "20:30") := by decide
  refine ⟨hgood, ?_⟩
  exact ((C8_addPoint_invariant 50 60 (some "20:30") hgood).1 "20:30,50:60" (by decide)).1

/-- Claim C9: `stringToPointArray` and `pointArrayToString` are mutually
inverse on the representable range — decoding the encoding of any array
of [level, volume] integer pairs returns the array — and decoding of an
undefined or empty string yields the empty array. -/
theorem C9_point_codec_roundtrip :
    (∀ a : List (Int × Int),
      stringToPointArray (some (pointArrayToString (a.map fun q => [q.1, q.2]))) =
        a.map fun q => [q.1, q.2]) ∧
    stringToPointArray none = [] ∧ stringToPointArray (some "") = [] := by
  refine ⟨?_, rfl, rfl⟩
  intro a
  apply stringToPointArray_pointArrayToString
  intro q hq
  rcases List.mem_map.mp hq with ⟨x, -, rfl⟩
  simp

/-- Claim C10: `formatVolume` returns "--" when the volume is undefined,
and otherwise the volume converted from SI by the unit's factor, rendered
with the unit's precision and suffixed with the unit's symbol. -/
theorem C10_formatVolume_display (unit : Int) (v : ℚ) :
    formatVolume unit none = "--" ∧
    formatVolume unit (some v) =
      toFixed (v * (getVolumeFormat unit).factor) (getVolumeFormat unit).precision ++
        (getVolumeFormat unit).unit :=
  ⟨rfl, rfl⟩
